import Mathlib

/-!
Shallow embedding of `task_manager.py` (Terminal Task Manager): the `Task`
entity, the `TaskManager` store (in-memory list plus next-id counter), and its
CRUD / filtering / sorting operations.  File I/O (`save_to_file`, the JSON
encoding itself) is not modelled: `save_to_file` has no effect on the in-memory
state, and `load_from_file`'s success path is modelled on already-decoded
entries (`load_from_data`).  Python strings are modelled as Lean `String`
(`List Char`), with the ASCII behaviour of `str.strip`, `str.lower`,
`str.title`.  Python `datetime.date` is modelled as a year/month/day record
with calendar ordering and day-stepping for `timedelta` arithmetic.
-/

namespace TaskModel

/-- Characters removed by Python `str.strip()` (ASCII whitespace). -/
def pySpace (c : Char) : Bool :=
  c == ' ' || c == '\t' || c == '\n' || c == '\r' || c == '\x0b' || c == '\x0c'

/-- Model of Python `str.strip()`: drop leading and trailing whitespace. -/
def pyStrip (s : String) : String :=
  ⟨((s.data.dropWhile pySpace).reverse.dropWhile pySpace).reverse⟩

/-- Model of Python `str.lower()` on ASCII letters (`Char.toLower` lowercases
exactly the basic latin range, as Python does for ASCII input). -/
def pyLower (s : String) : String :=
  ⟨s.data.map Char.toLower⟩

/-- Helper for `pyTitle`: the boolean records whether the previous character
was cased (an ASCII letter); a character after a cased one is lowercased,
a character after an uncased one is uppercased. -/
def pyTitleAux : Bool → List Char → List Char
  | _, [] => []
  | prev, c :: cs =>
    (if prev then c.toLower else c.toUpper) :: pyTitleAux c.isAlpha cs

/-- Model of Python `str.title()` on ASCII strings. -/
def pyTitle (s : String) : String :=
  ⟨pyTitleAux false s.data⟩

/-- Model of `datetime.date`: a calendar date (no time component). -/
structure Date where
  year : Nat
  month : Nat
  day : Nat
deriving DecidableEq

/-- Gregorian leap-year test. -/
def Date.isLeap (y : Nat) : Bool :=
  (y % 4 == 0 && y % 100 != 0) || (y % 400 == 0)

/-- Number of days in a month of a given year. -/
def Date.daysInMonth (y m : Nat) : Nat :=
  if m == 2 then (if Date.isLeap y then 29 else 28)
  else if m == 4 || m == 6 || m == 9 || m == 11 then 30
  else 31

/-- A well-formed ISO `YYYY-MM-DD` calendar date: four-digit year, real month
and day.  (Python's `date` additionally allows years 1-999, which `strftime`
renders without the four-digit padding assumed by `"%Y-%m-%d"` round-trips,
so the spec's ISO dates are the four-digit ones.) -/
def Date.Valid (d : Date) : Prop :=
  1000 ≤ d.year ∧ d.year ≤ 9999 ∧ 1 ≤ d.month ∧ d.month ≤ 12 ∧
    1 ≤ d.day ∧ d.day ≤ Date.daysInMonth d.year d.month

/-- Calendar order on dates (Python `date` comparison): lexicographic on
(year, month, day). -/
def Date.le (a b : Date) : Prop :=
  a.year < b.year ∨ (a.year = b.year ∧
    (a.month < b.month ∨ (a.month = b.month ∧ a.day ≤ b.day)))

/-- Strict calendar order on dates. -/
def Date.lt (a b : Date) : Prop :=
  a.year < b.year ∨ (a.year = b.year ∧
    (a.month < b.month ∨ (a.month = b.month ∧ a.day < b.day)))

instance (a b : Date) : Decidable (Date.le a b) := by
  unfold Date.le; exact inferInstance

instance (a b : Date) : Decidable (Date.lt a b) := by
  unfold Date.lt; exact inferInstance

/-- The next calendar day (used to model `timedelta(days=n)` addition). -/
def Date.succDay (d : Date) : Date :=
  if d.day < Date.daysInMonth d.year d.month then ⟨d.year, d.month, d.day + 1⟩
  else if d.month < 12 then ⟨d.year, d.month + 1, 1⟩
  else ⟨d.year + 1, 1, 1⟩

/-- Model of `d + timedelta(days=n)`. -/
def Date.addDays (d : Date) : Nat → Date
  | 0 => d
  | n + 1 => (Date.addDays d n).succDay

/-- Decimal digit characters. -/
def digitChar : Nat → Char
  | 0 => '0' | 1 => '1' | 2 => '2' | 3 => '3' | 4 => '4'
  | 5 => '5' | 6 => '6' | 7 => '7' | 8 => '8' | _ => '9'

/-- Numeric value of a decimal digit character. -/
def digitVal (c : Char) : Nat := c.toNat - 48

/-- Two-digit zero-padded decimal rendering (`strftime` `%m` / `%d`). -/
def pad2 (n : Nat) : List Char := [digitChar (n / 10 % 10), digitChar (n % 10)]

/-- Four-digit decimal rendering of a year (`strftime` `%Y` for years
1000-9999, where padded and unpadded output agree). -/
def year4 (n : Nat) : List Char :=
  [digitChar (n / 1000 % 10), digitChar (n / 100 % 10),
   digitChar (n / 10 % 10), digitChar (n % 10)]

/-- Model of `due_date.strftime("%Y-%m-%d")` for four-digit years. -/
def Date.strftimeIso (d : Date) : String :=
  ⟨year4 d.year ++ '-' :: (pad2 d.month ++ '-' :: pad2 d.day)⟩

/-- Model of `datetime.strptime(s, "%Y-%m-%d").date()`: exactly four year
digits, one or two month digits (value 1-12), one or two day digits (value
1-31), and the resulting day must exist in the month; `none` models the
raised `ValueError`. -/
def strptimeIso (s : String) : Option Date :=
  match s.data with
  | [y1, y2, y3, y4, h1, m1, m2, h2, d1, d2] =>
    if h1 == '-' && h2 == '-' && y1.isDigit && y2.isDigit && y3.isDigit && y4.isDigit
        && m1.isDigit && m2.isDigit && d1.isDigit && d2.isDigit then
      let y := 1000 * digitVal y1 + 100 * digitVal y2 + 10 * digitVal y3 + digitVal y4
      let m := 10 * digitVal m1 + digitVal m2
      let dy := 10 * digitVal d1 + digitVal d2
      if 1 ≤ y ∧ 1 ≤ m ∧ m ≤ 12 ∧ 1 ≤ dy ∧ dy ≤ 31 ∧ dy ≤ Date.daysInMonth y m then
        some ⟨y, m, dy⟩
      else none
    else none
  | [y1, y2, y3, y4, h1, m1, h2, d1, d2] =>
    if h1 == '-' && h2 == '-' && y1.isDigit && y2.isDigit && y3.isDigit && y4.isDigit
        && m1.isDigit && d1.isDigit && d2.isDigit then
      let y := 1000 * digitVal y1 + 100 * digitVal y2 + 10 * digitVal y3 + digitVal y4
      let m := digitVal m1
      let dy := 10 * digitVal d1 + digitVal d2
      if 1 ≤ y ∧ 1 ≤ m ∧ m ≤ 12 ∧ 1 ≤ dy ∧ dy ≤ 31 ∧ dy ≤ Date.daysInMonth y m then
        some ⟨y, m, dy⟩
      else none
    else if h1 == '-' && d1 == '-' && y1.isDigit && y2.isDigit && y3.isDigit && y4.isDigit
        && m1.isDigit && h2.isDigit && d2.isDigit then
      let y := 1000 * digitVal y1 + 100 * digitVal y2 + 10 * digitVal y3 + digitVal y4
      let m := 10 * digitVal m1 + digitVal h2
      let dy := digitVal d2
      if 1 ≤ y ∧ 1 ≤ m ∧ m ≤ 12 ∧ 1 ≤ dy ∧ dy ≤ 31 ∧ dy ≤ Date.daysInMonth y m then
        some ⟨y, m, dy⟩
      else none
    else none
  | [y1, y2, y3, y4, h1, m1, h2, d1] =>
    if h1 == '-' && h2 == '-' && y1.isDigit && y2.isDigit && y3.isDigit && y4.isDigit
        && m1.isDigit && d1.isDigit then
      let y := 1000 * digitVal y1 + 100 * digitVal y2 + 10 * digitVal y3 + digitVal y4
      let m := digitVal m1
      let dy := digitVal d1
      if 1 ≤ y ∧ 1 ≤ m ∧ m ≤ 12 ∧ 1 ≤ dy ∧ dy ≤ 31 ∧ dy ≤ Date.daysInMonth y m then
        some ⟨y, m, dy⟩
      else none
    else none
  | _ => none

/-- The `Task` entity (`class Task`). -/
structure Task where
  id : Nat
  title : String
  priority : String
  due_date : Date
  status : String
deriving DecidableEq

/-- `Task.VALID_PRIORITIES`. -/
def Task.VALID_PRIORITIES : List String := ["Low", "Medium", "High"]

/-- `Task.VALID_STATUSES`. -/
def Task.VALID_STATUSES : List String := ["Pending", "Completed"]

/-- `Task.__init__`: stores the fields, trimming the title; no validation. -/
def Task.init (id : Nat) (title priority : String) (due_date : Date)
    (status : String) : Task :=
  ⟨id, pyStrip title, priority, due_date, status⟩

/-- The dict produced by `Task.to_dict` / consumed by `Task.from_dict`. -/
structure TaskDict where
  id : Nat
  title : String
  priority : String
  due_date : String
  status : Option String
deriving DecidableEq

/-- `Task.to_dict`. -/
def Task.to_dict (t : Task) : TaskDict :=
  ⟨t.id, t.title, t.priority, t.due_date.strftimeIso, some t.status⟩

/-- `Task.from_dict`: parses the due date (propagating the strptime failure
as `none`), defaults an absent status to `"Pending"`, and builds the task
through `Task.init` (which trims the title). -/
def Task.from_dict (data : TaskDict) : Option Task :=
  (strptimeIso data.due_date).map fun due =>
    Task.init data.id data.title data.priority due (data.status.getD "Pending")

/-- The error raised by validation failures (`raise ValueError(...)`). -/
inductive PyError where
  | valueError (msg : String)
deriving DecidableEq

/-- The in-memory state of `TaskManager`: the ordered task list and the
next-id counter (the backing filename plays no role in the state logic). -/
structure TaskManager where
  task_list : List Task
  next_id : Nat
deriving DecidableEq

/-- `TaskManager._recompute_next_id`: 1 on an empty list, otherwise
`max(task.id for task in task_list) + 1` (Python `max` as a fold over the
non-empty list). -/
def TaskManager.recompute_next_id (s : TaskManager) : TaskManager :=
  match s.task_list with
  | [] => { s with next_id := 1 }
  | t :: ts => { s with next_id := (ts.map Task.id).foldl max t.id + 1 }

/-- `TaskManager.add_task`: title-case the priority, reject it if not a valid
priority, otherwise append `Task(next_id, title, priority, due_date)` (the
counter is incremented by `_generate_id`) and return the created task. -/
def TaskManager.add_task (s : TaskManager) (title priority : String)
    (due_date : Date) : Except PyError (TaskManager × Task) :=
  let priority := pyTitle priority
  if priority ∉ Task.VALID_PRIORITIES then
    .error (.valueError "Priority must be one of VALID_PRIORITIES")
  else
    let new_task := Task.init s.next_id title priority due_date "Pending"
    .ok ({ task_list := s.task_list ++ [new_task],
           next_id := s.next_id + 1 }, new_task)

/-- `TaskManager.find_task_by_id`: first task with the given id, else `None`. -/
def TaskManager.find_task_by_id (s : TaskManager) (task_id : Nat) : Option Task :=
  s.task_list.find? fun t => t.id == task_id

/-- Second half of `update_task`'s per-field sequence: apply `due_date` if
supplied, then validate-and-apply `status`; an invalid status aborts with the
already-applied fields kept (the Python code mutates the task in place before
raising). -/
def updateDueStatus (t : Task) (due_date : Option Date) (status : Option String) :
    Task × Option PyError :=
  let t := match due_date with
    | none => t
    | some d => { t with due_date := d }
  match status with
  | none => (t, none)
  | some st =>
    let st := pyTitle st
    if st ∉ Task.VALID_STATUSES then
      (t, some (.valueError "Status must be one of VALID_STATUSES"))
    else ({ t with status := st }, none)

/-- The per-field validate-and-apply sequence of `update_task`, in source
order (title, priority, due_date, status); returns the task as mutated so
far together with the raised error, if any. -/
def updateFields (t : Task) (title priority : Option String)
    (due_date : Option Date) (status : Option String) : Task × Option PyError :=
  let t := match title with
    | none => t
    | some s => { t with title := pyStrip s }
  match priority with
  | none => updateDueStatus t due_date status
  | some p =>
    let p := pyTitle p
    if p ∉ Task.VALID_PRIORITIES then
      (t, some (.valueError "Priority must be one of VALID_PRIORITIES"))
    else updateDueStatus { t with priority := p } due_date status

/-- Replace the first task with the given id (models in-place mutation of the
object returned by `find_task_by_id`). -/
def replaceFirstById (ts : List Task) (task_id : Nat) (t2 : Task) : List Task :=
  match ts with
  | [] => []
  | t :: rest =>
    if t.id == task_id then t2 :: rest else t :: replaceFirstById rest task_id t2

/-- `TaskManager.update_task`: `false` if the id is absent; otherwise the
per-field sequence runs against the found task (mutating it in place), and
the call returns `True` on success or propagates a `ValueError` — in the
error case the fields applied before the invalid one remain applied. -/
def TaskManager.update_task (s : TaskManager) (task_id : Nat)
    (title priority : Option String) (due_date : Option Date)
    (status : Option String) : TaskManager × Except PyError Bool :=
  match s.find_task_by_id task_id with
  | none => (s, .ok false)
  | some task =>
    let r := updateFields task title priority due_date status
    let s2 : TaskManager :=
      { s with task_list := replaceFirstById s.task_list task_id r.1 }
    match r.2 with
    | none => (s2, .ok true)
    | some e => (s2, .error e)

/-- `TaskManager.mark_complete`. -/
def TaskManager.mark_complete (s : TaskManager) (task_id : Nat) :
    TaskManager × Except PyError Bool :=
  s.update_task task_id none none none (some "Completed")

/-- Remove the first task with the given id (`task_list.remove(task)` where
`task` is the object found by id). -/
def removeFirstById (ts : List Task) (task_id : Nat) : List Task :=
  match ts with
  | [] => []
  | t :: rest =>
    if t.id == task_id then rest else t :: removeFirstById rest task_id

/-- `TaskManager.delete_task`: `false` if absent, otherwise remove the task
and recompute the next-id counter from the remaining collection. -/
def TaskManager.delete_task (s : TaskManager) (task_id : Nat) :
    TaskManager × Bool :=
  match s.find_task_by_id task_id with
  | none => (s, false)
  | some _ =>
    (TaskManager.recompute_next_id
      { s with task_list := removeFirstById s.task_list task_id }, true)

/-- `TaskManager.filter_tasks`: the ambient `date.today()` is passed
explicitly as `today`; `value=None` is `none` and a missing value or empty
string yields the empty list. -/
def TaskManager.filter_tasks (s : TaskManager) (today : Date) (by_ : String)
    (value : Option String) : List Task :=
  let b := pyLower by_
  if b = "status" then
    match value with
    | none => []
    | some v =>
      if v = "" then []
      else s.task_list.filter fun t => t.status = pyTitle v
  else if b = "due_date" then
    match value with
    | none => []
    | some v =>
      if v = "" then []
      else
        let val := pyLower v
        if val = "today" then
          s.task_list.filter fun t => t.due_date = today
        else if val = "week" then
          let week_end := today.addDays 7
          s.task_list.filter fun t =>
            Date.le today t.due_date ∧ Date.le t.due_date week_end
        else
          match strptimeIso v with
          | some specific => s.task_list.filter fun t => t.due_date = specific
          | none => []
  else []

/-- Priority rank used by `view_tasks`'s sort key:
`prio_map.get(t.priority, 3)` with High=0, Medium=1, Low=2. -/
def prioRank (p : String) : Nat :=
  if p = "High" then 0 else if p = "Medium" then 1 else if p = "Low" then 2 else 3

/-- The tuple order underlying `sorted(tasks, key=sort_key)` with
`sort_key(t) = (t.due_date, prio_map.get(t.priority, 3), t.id)`: lexicographic
comparison of the key tuples. -/
def sortKeyLe (a b : Task) : Bool :=
  decide (Date.lt a.due_date b.due_date ∨ (a.due_date = b.due_date ∧
    (prioRank a.priority < prioRank b.priority ∨
      (prioRank a.priority = prioRank b.priority ∧ a.id ≤ b.id))))

/-- The display ordering of `view_tasks` (spec: `SortedView`): a stable sort
by the key above, modelled with the stable `List.mergeSort` (Python's
`sorted` is likewise a stable merge sort). -/
def sorted_view (tasks : List Task) : List Task :=
  tasks.mergeSort sortKeyLe

/-- Success path of `TaskManager.load_from_file` on already-decoded entries:
deserialize each entry (any single failure aborts the whole load), install
the list, and recompute the next-id counter. -/
def load_from_data (items : List TaskDict) : Option TaskManager :=
  (items.mapM Task.from_dict).map fun ts =>
    TaskManager.recompute_next_id { task_list := ts, next_id := 1 }

/-- A valid task as the spec's data model describes it: enum fields in range,
title already trimmed and non-empty, well-formed ISO due date. -/
def ValidTask (t : Task) : Prop :=
  t.priority ∈ Task.VALID_PRIORITIES ∧ t.status ∈ Task.VALID_STATUSES ∧
    pyStrip t.title = t.title ∧ t.title ≠ "" ∧ t.due_date.Valid

instance (d : Date) : Decidable d.Valid := by
  unfold Date.Valid; exact inferInstance

instance (t : Task) : Decidable (ValidTask t) := by
  unfold ValidTask; exact inferInstance

/-- Task A of the spec's sorting example: due 2025-01-01, High, id 1. -/
def exTaskA : Task := ⟨1, "A", "High", ⟨2025, 1, 1⟩, "Pending"⟩

/-- Task B of the spec's sorting example: due 2025-01-01, Medium, id 2. -/
def exTaskB : Task := ⟨2, "B", "Medium", ⟨2025, 1, 1⟩, "Pending"⟩

/-- Task C of the spec's sorting example: due 2024-12-31, Low, id 3. -/
def exTaskC : Task := ⟨3, "C", "Low", ⟨2024, 12, 31⟩, "Pending"⟩

/-- A concrete pending task used to instantiate the general theorems. -/
def sampleTask1 : Task := ⟨1, "write report", "Low", ⟨2025, 1, 15⟩, "Pending"⟩

/-- A concrete completed task used to instantiate the general theorems. -/
def sampleTask2 : Task := ⟨2, "review notes", "High", ⟨2025, 1, 20⟩, "Completed"⟩

/-- A concrete two-task store used to instantiate the general theorems. -/
def sampleStore : TaskManager := ⟨[sampleTask1, sampleTask2], 3⟩

/-- A concrete serialized collection for instantiating the load theorems. -/
def sampleItems : List TaskDict := [⟨7, "ship release", "Low", "2025-01-15", some "Pending"⟩]

/-- The store state produced by loading `sampleItems`. -/
def sampleLoaded : TaskManager :=
  ⟨[⟨7, "ship release", "Low", ⟨2025, 1, 15⟩, "Pending"⟩], 8⟩

/-- The store produced by adding a first task to an empty store. -/
def sampleAdded : TaskManager := ⟨[⟨1, "plan trip", "Low", ⟨2025, 1, 15⟩, "Pending"⟩], 2⟩

/-- The task created by adding a first task to an empty store. -/
def sampleAddedTask : Task := ⟨1, "plan trip", "Low", ⟨2025, 1, 15⟩, "Pending"⟩

/-! Auxiliary lemmas. -/

theorem toNat_ofNat_of_lt {n : Nat} (h : n < 55296) : (Char.ofNat n).toNat = n := by
  unfold Char.ofNat
  rw [dif_pos (Or.inl h)]
  rfl

theorem toLower_idem (c : Char) : c.toLower.toLower = c.toLower := by
  unfold Char.toLower
  by_cases h : c.toNat ≥ 65 ∧ c.toNat ≤ 90
  · rw [if_pos h]
    have h32 : (Char.ofNat (c.toNat + 32)).toNat = c.toNat + 32 :=
      toNat_ofNat_of_lt (by omega)
    rw [if_neg (by omega)]
  · rw [if_neg h, if_neg h]

theorem pyLower_idem (s : String) : pyLower (pyLower s) = pyLower s := by
  unfold pyLower
  apply congrArg String.mk
  show List.map Char.toLower (List.map Char.toLower s.data) = List.map Char.toLower s.data
  rw [List.map_map]
  exact List.map_congr_left fun c _ => toLower_idem c

theorem digitVal_digitChar {k : Nat} (h : k < 10) : digitVal (digitChar k) = k := by
  interval_cases k <;> rfl

theorem isDigit_digitChar {k : Nat} (h : k < 10) : (digitChar k).isDigit = true := by
  interval_cases k <;> rfl

theorem digitChar_beq_dash {k : Nat} (h : k < 10) : (digitChar k == '-') = false := by
  interval_cases k <;> rfl

theorem daysInMonth_le (y m : Nat) : Date.daysInMonth y m ≤ 31 := by
  unfold Date.daysInMonth
  split
  · split <;> omega
  · split <;> omega

/-- Deserializing the serialized form of a well-formed date recovers the
date: the `strftime`/`strptime` round trip on `"%Y-%m-%d"`. -/
theorem strptimeIso_strftimeIso {d : Date} (h : d.Valid) :
    strptimeIso d.strftimeIso = some d := by
  obtain ⟨y, m, dy⟩ := d
  simp only [Date.Valid] at h
  obtain ⟨hy1, hy2, hm1, hm2, hd1, hd2⟩ := h
  have hdm : Date.daysInMonth y m ≤ 31 := daysInMonth_le y m
  simp only [Date.strftimeIso, year4, pad2, List.cons_append, List.nil_append]
  unfold strptimeIso
  simp only [isDigit_digitChar (Nat.mod_lt _ (by omega)), beq_self_eq_true,
    Bool.true_and, Bool.and_true, Bool.and_self, if_true]
  have ey : 1000 * digitVal (digitChar (y / 1000 % 10)) +
      100 * digitVal (digitChar (y / 100 % 10)) +
      10 * digitVal (digitChar (y / 10 % 10)) + digitVal (digitChar (y % 10)) = y := by
    rw [digitVal_digitChar (Nat.mod_lt _ (by omega)),
      digitVal_digitChar (Nat.mod_lt _ (by omega)),
      digitVal_digitChar (Nat.mod_lt _ (by omega)),
      digitVal_digitChar (Nat.mod_lt _ (by omega))]
    omega
  have em : 10 * digitVal (digitChar (m / 10 % 10)) + digitVal (digitChar (m % 10)) = m := by
    rw [digitVal_digitChar (Nat.mod_lt _ (by omega)),
      digitVal_digitChar (Nat.mod_lt _ (by omega))]
    omega
  have ed : 10 * digitVal (digitChar (dy / 10 % 10)) + digitVal (digitChar (dy % 10)) = dy := by
    rw [digitVal_digitChar (Nat.mod_lt _ (by omega)),
      digitVal_digitChar (Nat.mod_lt _ (by omega))]
    omega
  rw [ey, em, ed]
  rw [if_pos (by omega)]

theorem le_foldl_max (l : List Nat) (a : Nat) : a ≤ l.foldl max a := by
  induction l generalizing a with
  | nil => exact Nat.le_refl a
  | cons b t ih => exact Nat.le_trans (Nat.le_max_left a b) (ih (max a b))

theorem mem_le_foldl_max (l : List Nat) (a : Nat) : ∀ x ∈ l, x ≤ l.foldl max a := by
  induction l generalizing a with
  | nil => intro x hx; cases hx
  | cons b t ih =>
    intro x hx
    rcases List.mem_cons.mp hx with rfl | hx
    · exact Nat.le_trans (Nat.le_max_right a x) (le_foldl_max t _)
    · exact ih (max a b) x hx

theorem foldl_max_mem (l : List Nat) (a : Nat) :
    l.foldl max a = a ∨ l.foldl max a ∈ l := by
  induction l generalizing a with
  | nil => exact Or.inl rfl
  | cons b t ih =>
    rcases ih (max a b) with h | h
    · rcases max_choice a b with hm | hm
      · exact Or.inl (by rw [List.foldl_cons, h, hm])
      · exact Or.inr (by rw [List.foldl_cons, h, hm]; exact List.mem_cons_self b t)
    · exact Or.inr (List.mem_cons_of_mem b h)

/-- What `_recompute_next_id` guarantees: the list is untouched, the counter
is 1 on an empty collection, it strictly exceeds every stored id, and on a
non-empty collection it is one more than an id present in the collection
(hence `max(ids) + 1`). -/
theorem recompute_next_id_spec (s : TaskManager) :
    (TaskManager.recompute_next_id s).task_list = s.task_list ∧
    (s.task_list = [] → (TaskManager.recompute_next_id s).next_id = 1) ∧
    (∀ t ∈ s.task_list, t.id < (TaskManager.recompute_next_id s).next_id) ∧
    (s.task_list ≠ [] →
      ∃ t ∈ s.task_list, t.id + 1 = (TaskManager.recompute_next_id s).next_id) := by
  obtain ⟨tasks, n⟩ := s
  cases tasks with
  | nil => exact ⟨rfl, fun _ => rfl, fun t ht => absurd ht (List.not_mem_nil t), fun h => absurd rfl h⟩
  | cons t ts =>
    simp only [TaskManager.recompute_next_id]
    refine ⟨trivial, fun h => absurd h (List.cons_ne_nil t ts), ?_, fun _ => ?_⟩
    · intro u hu
      rcases List.mem_cons.mp hu with rfl | hu
      · exact Nat.lt_succ_of_le (le_foldl_max (ts.map Task.id) u.id)
      · exact Nat.lt_succ_of_le
          (mem_le_foldl_max (ts.map Task.id) t.id u.id (List.mem_map_of_mem Task.id hu))
    · rcases foldl_max_mem (ts.map Task.id) t.id with h | h
      · exact ⟨t, List.mem_cons_self t ts, by rw [h]⟩
      · rcases List.mem_map.mp h with ⟨u, hu, hid⟩
        exact ⟨u, List.mem_cons_of_mem t hu, by rw [hid]⟩

theorem replaceFirstById_self (ts : List Task) (tid : Nat) (t : Task)
    (h : ts.find? (fun u => u.id == tid) = some t) :
    replaceFirstById ts tid t = ts := by
  induction ts with
  | nil => simp [List.find?] at h
  | cons u rest ih =>
    rw [List.find?_cons] at h
    unfold replaceFirstById
    by_cases hc : (u.id == tid) = true
    · simp only [hc] at h
      rw [if_pos hc]
      injection h with h
      rw [h]
    · simp only [Bool.not_eq_true] at hc
      simp only [hc] at h
      rw [if_neg (by simp [hc]), ih h]

theorem Date.le_refl (d : Date) : Date.le d d := by
  unfold Date.le; omega

theorem Date.le_trans {a b c : Date} (h1 : Date.le a b) (h2 : Date.le b c) :
    Date.le a c := by
  unfold Date.le at h1 h2 ⊢; omega

theorem Date.le_succDay (d : Date) : Date.le d d.succDay := by
  obtain ⟨y, m, dy⟩ := d
  simp only [Date.succDay]
  split
  · simp only [Date.le, eq_self_iff_true, true_and]; omega
  · split
    · simp only [Date.le, eq_self_iff_true, true_and]; omega
    · simp only [Date.le, eq_self_iff_true, true_and]; omega

theorem Date.le_addDays (d : Date) (n : Nat) : Date.le d (d.addDays n) := by
  induction n with
  | zero => exact Date.le_refl d
  | succ k ih => exact Date.le_trans ih (Date.le_succDay (d.addDays k))

theorem sortKeyLe_total (a b : Task) : sortKeyLe a b || sortKeyLe b a := by
  obtain ⟨aid, _, ap, ⟨ya, ma, da⟩, _⟩ := a
  obtain ⟨bid, _, bp, ⟨yb, mb, db⟩, _⟩ := b
  simp only [sortKeyLe, Date.lt, Date.mk.injEq, Bool.or_eq_true, decide_eq_true_eq]
  omega

theorem sortKeyLe_trans (a b c : Task) (h1 : sortKeyLe a b) (h2 : sortKeyLe b c) :
    sortKeyLe a c := by
  obtain ⟨aid, _, ap, ⟨ya, ma, da⟩, _⟩ := a
  obtain ⟨bid, _, bp, ⟨yb, mb, db⟩, _⟩ := b
  obtain ⟨cid, _, cp, ⟨yc, mc, dc⟩, _⟩ := c
  simp only [sortKeyLe, Date.lt, Date.mk.injEq, decide_eq_true_eq] at h1 h2 ⊢
  omega

theorem sortKeyLe_antisymm_keys (a b : Task) (h1 : sortKeyLe a b) (h2 : sortKeyLe b a) :
    a.due_date = b.due_date ∧ prioRank a.priority = prioRank b.priority ∧ a.id = b.id := by
  obtain ⟨aid, _, ap, ⟨ya, ma, da⟩, _⟩ := a
  obtain ⟨bid, _, bp, ⟨yb, mb, db⟩, _⟩ := b
  simp only [sortKeyLe, Date.lt, Date.mk.injEq, decide_eq_true_eq] at h1 h2
  simp only [Date.mk.injEq]
  omega

/-! Claim theorems. -/

/-- C1: the claim states that an `UpdateTask` call supplying several fields of
which a later one is invalid fails with ValidationError and applies no partial
mutation.  The code validates and applies field by field, so the claim fails:
on a store holding task 1 = (title "Old", Low, 2025-01-15, Pending), the call
`update_task(1, title="New", status="Finished")` raises the validation error
yet leaves the task's title mutated to "New". -/
theorem c1_update_task_partial_apply :
    (TaskManager.update_task ⟨[⟨1, "Old", "Low", ⟨2025, 1, 15⟩, "Pending"⟩], 2⟩ 1
        (some "New") none none (some "Finished")).2 =
      .error (.valueError "Status must be one of VALID_STATUSES") ∧
    (TaskManager.update_task ⟨[⟨1, "Old", "Low", ⟨2025, 1, 15⟩, "Pending"⟩], 2⟩ 1
        (some "New") none none (some "Finished")).1.task_list =
      [⟨1, "New", "Low", ⟨2025, 1, 15⟩, "Pending"⟩] :=
  ⟨rfl, rfl⟩

/-- C2: the claim states that every stored title is non-empty after trimming
and that `AddTask` rejects an empty or whitespace-only title with
ValidationError.  The code performs no title validation: adding a
whitespace-only title to an empty store succeeds and stores a task whose
title is the empty string. -/
theorem c2_add_task_accepts_blank_title :
    TaskManager.add_task ⟨[], 1⟩ "   " "Low" ⟨2025, 1, 15⟩ =
      .ok (⟨[⟨1, "", "Low", ⟨2025, 1, 15⟩, "Pending"⟩], 2⟩,
        ⟨1, "", "Low", ⟨2025, 1, 15⟩, "Pending"⟩) :=
  rfl

/-- C3: after a successful load the next-id counter exceeds every id in the
collection and equals max(ids) + 1 (one more than an id present in the
collection) or 1 when empty; after every successful delete the counter is
recomputed the same way. -/
theorem c3_next_id_exceeds_all_ids (items : List TaskDict) (s' : TaskManager)
    (hload : load_from_data items = some s')
    (s : TaskManager) (tid : Nat)
    (hdel : (s.delete_task tid).2 = true) :
    (∀ t ∈ s'.task_list, t.id < s'.next_id) ∧
    (s'.task_list = [] → s'.next_id = 1) ∧
    (s'.task_list ≠ [] → ∃ t ∈ s'.task_list, t.id + 1 = s'.next_id) ∧
    (∀ t ∈ (s.delete_task tid).1.task_list, t.id < (s.delete_task tid).1.next_id) ∧
    ((s.delete_task tid).1.task_list = [] → (s.delete_task tid).1.next_id = 1) ∧
    ((s.delete_task tid).1.task_list ≠ [] →
      ∃ t ∈ (s.delete_task tid).1.task_list,
        t.id + 1 = (s.delete_task tid).1.next_id) := by
  have hload' : ∃ ts : List Task, TaskManager.recompute_next_id ⟨ts, 1⟩ = s' := by
    unfold load_from_data at hload
    cases hm : items.mapM Task.from_dict with
    | none => rw [hm] at hload; cases hload
    | some ts =>
      rw [hm] at hload
      injection hload with hload
      exact ⟨ts, hload⟩
  obtain ⟨ts, hts⟩ := hload'
  obtain ⟨heq1, h1, h2, h3⟩ := recompute_next_id_spec ⟨ts, 1⟩
  rw [hts] at heq1 h1 h2 h3
  have hfind : ∃ u, s.find_task_by_id tid = some u := by
    unfold TaskManager.delete_task at hdel
    cases hf : s.find_task_by_id tid with
    | none => rw [hf] at hdel; simp at hdel
    | some u => exact ⟨u, rfl⟩
  obtain ⟨u, hf⟩ := hfind
  have hdel_eq : (s.delete_task tid).1 =
      TaskManager.recompute_next_id ⟨removeFirstById s.task_list tid, s.next_id⟩ := by
    unfold TaskManager.delete_task
    rw [hf]
  obtain ⟨heq1', h1', h2', h3'⟩ :=
    recompute_next_id_spec ⟨removeFirstById s.task_list tid, s.next_id⟩
  rw [← hdel_eq] at heq1' h1' h2' h3'
  exact ⟨by rw [heq1]; exact h2, by rw [heq1]; exact h1, by rw [heq1]; exact h3,
    by rw [heq1']; exact h2', by rw [heq1']; exact h1', by rw [heq1']; exact h3'⟩

/-- C4: deserializing the serialization of any valid task (valid enum fields,
trimmed non-empty title, well-formed ISO date) recovers the task on all five
fields. -/
theorem c4_serialize_deserialize_roundtrip (t : Task) (h : ValidTask t) :
    Task.from_dict (Task.to_dict t) = some t := by
  obtain ⟨hp, hs, hstrip, hne, hdate⟩ := h
  simp only [Task.to_dict, Task.from_dict]
  rw [strptimeIso_strftimeIso hdate]
  simp only [Option.map_some, Option.getD_some, Task.init]
  rw [hstrip]
  rfl

/-- C5: on any store satisfying the id invariant (every stored id is below
the next-id counter), a successful `AddTask` followed by `FindById` on the
returned task's id returns that very task. -/
theorem c5_add_then_find_returns_task (s : TaskManager)
    (title priority : String) (due_date : Date)
    (s' : TaskManager) (t' : Task)
    (hinv : ∀ u ∈ s.task_list, u.id < s.next_id)
    (hadd : s.add_task title priority due_date = .ok (s', t')) :
    s'.find_task_by_id t'.id = some t' := by
  unfold TaskManager.add_task at hadd
  by_cases hp : pyTitle priority ∉ Task.VALID_PRIORITIES
  · rw [if_pos hp] at hadd; cases hadd
  · rw [if_neg hp] at hadd
    injection hadd with hadd
    injection hadd with he1 he2
    subst he1
    subst he2
    simp only [TaskManager.find_task_by_id]
    rw [List.find?_append]
    have hnone : s.task_list.find?
        (fun t => t.id == (Task.init s.next_id title (pyTitle priority) due_date "Pending").id)
          = none := by
      rw [List.find?_eq_none]
      intro u hu
      simp only [Task.init, beq_iff_eq]
      exact Nat.ne_of_lt (hinv u hu)
    rw [hnone]
    simp [List.find?, Task.init]

/-- C6: filtering by status with a non-empty value returns exactly the
sublist of tasks whose status equals the title-cased value, in original
relative order; an absent or empty value yields the empty list. -/
theorem c6_filter_by_status (s : TaskManager) (today : Date) (v : String)
    (hv : v ≠ "") :
    TaskManager.filter_tasks s today "status" (some v) =
        s.task_list.filter (fun t => decide (t.status = pyTitle v)) ∧
    List.Sublist (TaskManager.filter_tasks s today "status" (some v)) s.task_list ∧
    (∀ t : Task, t ∈ TaskManager.filter_tasks s today "status" (some v) ↔
        t ∈ s.task_list ∧ t.status = pyTitle v) ∧
    TaskManager.filter_tasks s today "status" none = [] ∧
    TaskManager.filter_tasks s today "status" (some "") = [] := by
  have key : TaskManager.filter_tasks s today "status" (some v) =
      s.task_list.filter (fun t => decide (t.status = pyTitle v)) := by
    simp only [TaskManager.filter_tasks]
    rw [if_pos (show pyLower "status" = "status" from rfl)]
    show (if v = "" then [] else s.task_list.filter fun t => t.status = pyTitle v) =
      s.task_list.filter (fun t => decide (t.status = pyTitle v))
    rw [if_neg hv]
  refine ⟨key, ?_, ?_, rfl, rfl⟩
  · rw [key]; exact List.filter_sublist _
  · intro t
    rw [key, List.mem_filter]
    simp only [decide_eq_true_eq]

/-- C7: filtering by due date with value "week" (any casing) returns exactly
the tasks whose due date lies in the inclusive range
[today, today + 7 days], including the two endpoints. -/
theorem c7_filter_due_week (s : TaskManager) (today : Date) (v : String)
    (hv : pyLower v = "week") :
    TaskManager.filter_tasks s today "due_date" (some v) =
        s.task_list.filter (fun t =>
          decide (Date.le today t.due_date ∧ Date.le t.due_date (today.addDays 7))) ∧
    (∀ t : Task, t ∈ TaskManager.filter_tasks s today "due_date" (some v) ↔
        t ∈ s.task_list ∧ Date.le today t.due_date ∧
          Date.le t.due_date (today.addDays 7)) ∧
    (∀ t ∈ s.task_list, t.due_date = today →
        t ∈ TaskManager.filter_tasks s today "due_date" (some v)) ∧
    (∀ t ∈ s.task_list, t.due_date = today.addDays 7 →
        t ∈ TaskManager.filter_tasks s today "due_date" (some v)) := by
  have hv' : v ≠ "" := by
    intro h
    rw [h] at hv
    exact absurd hv (by decide)
  have key : TaskManager.filter_tasks s today "due_date" (some v) =
      s.task_list.filter (fun t =>
        decide (Date.le today t.due_date ∧ Date.le t.due_date (today.addDays 7))) := by
    simp only [TaskManager.filter_tasks]
    rw [if_neg (show ¬pyLower "due_date" = "status" by decide),
      if_pos (show pyLower "due_date" = "due_date" from rfl)]
    show (if v = "" then []
      else if pyLower v = "today" then s.task_list.filter fun t => t.due_date = today
      else if pyLower v = "week" then
        s.task_list.filter fun t =>
          Date.le today t.due_date ∧ Date.le t.due_date (today.addDays 7)
      else match strptimeIso v with
        | some specific => s.task_list.filter fun t => t.due_date = specific
        | none => []) = _
    rw [if_neg hv', hv,
      if_neg (show ¬("week" : String) = "today" by decide), if_pos rfl]
  have hmem : ∀ t : Task, t ∈ TaskManager.filter_tasks s today "due_date" (some v) ↔
      t ∈ s.task_list ∧ Date.le today t.due_date ∧
        Date.le t.due_date (today.addDays 7) := by
    intro t
    rw [key, List.mem_filter]
    simp only [decide_eq_true_eq]
  refine ⟨key, hmem, ?_, ?_⟩
  · intro t ht heq
    exact (hmem t).mpr ⟨ht, by rw [heq]; exact ⟨Date.le_refl today, Date.le_addDays today 7⟩⟩
  · intro t ht heq
    exact (hmem t).mpr ⟨ht, by rw [heq]; exact ⟨Date.le_addDays today 7, Date.le_refl _⟩⟩

set_option maxRecDepth 4000 in
unseal List.merge List.mergeSort in
/-- C8: the display ordering sorts by (due date, priority rank with High=0,
Medium=1, Low=2, other=3, id), all ascending; the key order is total and
transitive with antisymmetric keys (so the result is deterministic), the
sorted view is a sorted permutation of the input, it is stable (any pair
already in key order keeps its relative order), and on the spec's example
A=(2025-01-01, High, 1), B=(2025-01-01, Medium, 2), C=(2024-12-31, Low, 3)
it yields [C, A, B]. -/
theorem c8_sorted_view_spec :
    (∀ a b : Task, sortKeyLe a b || sortKeyLe b a) ∧
    (∀ a b : Task, sortKeyLe a b → sortKeyLe b a →
      a.due_date = b.due_date ∧ prioRank a.priority = prioRank b.priority ∧
        a.id = b.id) ∧
    (∀ l : List Task, (sorted_view l).Perm l) ∧
    (∀ l : List Task, (sorted_view l).Pairwise (fun x y => sortKeyLe x y = true)) ∧
    (∀ (a b : Task) (l : List Task), List.Sublist [a, b] l → sortKeyLe a b = true →
      List.Sublist [a, b] (sorted_view l)) ∧
    sorted_view [exTaskA, exTaskB, exTaskC] = [exTaskC, exTaskA, exTaskB] := by
  refine ⟨sortKeyLe_total, sortKeyLe_antisymm_keys, ?_, ?_, ?_, ?_⟩
  · exact fun l => List.mergeSort_perm l sortKeyLe
  · exact fun l => List.sorted_mergeSort sortKeyLe_trans sortKeyLe_total l
  · exact fun a b l hsub hab =>
      List.pair_sublist_mergeSort sortKeyLe_trans sortKeyLe_total hab hsub
  · decide

/-- C9: calling `UpdateTask` on a present id with no fields supplied returns
true and leaves the store (every field of every task, and the counter)
unchanged. -/
theorem c9_update_no_fields_noop (s : TaskManager) (tid : Nat) (t : Task)
    (h : s.find_task_by_id tid = some t) :
    s.update_task tid none none none none = (s, .ok true) := by
  have hf := h
  unfold TaskManager.find_task_by_id at hf
  unfold TaskManager.update_task
  rw [h]
  show ({ s with task_list := replaceFirstById s.task_list tid t }, Except.ok true) =
    (s, Except.ok true)
  rw [replaceFirstById_self s.task_list tid t hf]

/-- C10: the `by` argument of `FilterTasks` is case-insensitive: filtering
with any casing of `by` gives the same result as filtering with its
lowercase form, for every store, value, and current date. -/
theorem c10_filter_by_case_insensitive (s : TaskManager) (today : Date)
    (by_ : String) (value : Option String) :
    s.filter_tasks today by_ value = s.filter_tasks today (pyLower by_) value := by
  simp only [TaskManager.filter_tasks]
  rw [pyLower_idem]

/-! Witnesses instantiating the claim theorems at concrete inputs. -/

theorem c3_witness :
    (∀ t ∈ sampleLoaded.task_list, t.id < sampleLoaded.next_id) ∧
    (sampleLoaded.task_list = [] → sampleLoaded.next_id = 1) ∧
    (sampleLoaded.task_list ≠ [] →
      ∃ t ∈ sampleLoaded.task_list, t.id + 1 = sampleLoaded.next_id) ∧
    (∀ t ∈ (sampleStore.delete_task 2).1.task_list,
      t.id < (sampleStore.delete_task 2).1.next_id) ∧
    ((sampleStore.delete_task 2).1.task_list = [] →
      (sampleStore.delete_task 2).1.next_id = 1) ∧
    ((sampleStore.delete_task 2).1.task_list ≠ [] →
      ∃ t ∈ (sampleStore.delete_task 2).1.task_list,
        t.id + 1 = (sampleStore.delete_task 2).1.next_id) :=
  c3_next_id_exceeds_all_ids sampleItems sampleLoaded (by decide) sampleStore 2 (by decide)

theorem c4_witness :
    ValidTask sampleTask2 ∧
      Task.from_dict (Task.to_dict sampleTask2) = some sampleTask2 :=
  ⟨by decide, c4_serialize_deserialize_roundtrip sampleTask2 (by decide)⟩

theorem c5_witness :
    TaskManager.find_task_by_id sampleAdded sampleAddedTask.id = some sampleAddedTask :=
  c5_add_then_find_returns_task ⟨[], 1⟩ "plan trip" "low" ⟨2025, 1, 15⟩
    sampleAdded sampleAddedTask (by intro u hu; cases hu) rfl

theorem c6_witness :
    TaskManager.filter_tasks sampleStore ⟨2025, 1, 1⟩ "status" (some "completed") =
      sampleStore.task_list.filter (fun t => decide (t.status = pyTitle "completed")) :=
  (c6_filter_by_status sampleStore ⟨2025, 1, 1⟩ "completed" (by decide)).1

theorem c7_witness :
    TaskManager.filter_tasks sampleStore ⟨2025, 1, 14⟩ "due_date" (some "WEEK") =
      sampleStore.task_list.filter (fun t =>
        decide (Date.le ⟨2025, 1, 14⟩ t.due_date ∧
          Date.le t.due_date (Date.addDays ⟨2025, 1, 14⟩ 7))) :=
  (c7_filter_due_week sampleStore ⟨2025, 1, 14⟩ "WEEK" (by decide)).1

theorem c8_witness :
    List.Sublist [exTaskA, exTaskB] (sorted_view [exTaskA, exTaskB]) :=
  c8_sorted_view_spec.2.2.2.2.1 exTaskA exTaskB [exTaskA, exTaskB]
    (List.Sublist.refl _) (by decide)

theorem c9_witness :
    TaskManager.update_task sampleStore 1 none none none none =
      (sampleStore, .ok true) :=
  c9_update_no_fields_noop sampleStore 1 sampleTask1 rfl

theorem c10_witness :
    TaskManager.filter_tasks sampleStore ⟨2025, 1, 1⟩ "STATUS" (some "pending") =
      TaskManager.filter_tasks sampleStore ⟨2025, 1, 1⟩ (pyLower "STATUS")
        (some "pending") :=
  c10_filter_by_case_insensitive sampleStore ⟨2025, 1, 1⟩ "STATUS" (some "pending")

end TaskModel
